import Mathlib

/-!
# Collection statistics accumulator (`xapian-core/common/stats.h`)

A shallow embedding of `class Stats` and of its inline methods
`operator+=`, `get_termfreq`, `set_termfreq`, `get_reltermfreq` and
`set_reltermfreq`, followed by the properties proved about them.

* `std::map<string, Xapian::doccount>` is a list of entries in strictly
  increasing key order (`StdMap`), with `find` and `operator[]`.
* A failing `Assert` is an `Except.error`; a method that mutates `*this`
  returns the outcome together with the state it leaves behind.
-/

namespace Xapian

/-- Modelled from the spec: the type `Xapian::doccount` of `xapian/types.h` (not part of the
sources at hand), which the data model describes as a "non-negative integer count". -/
abbrev doccount := ℕ

/-- Modelled from the spec: the type `Xapian::doclength` of `xapian/types.h` (not part of the
sources at hand), a real number; it is taken in exact rational arithmetic. -/
abbrev doclength := ℚ

/-- The two contract violations an `Assert` of `stats.h` can signal. -/
inductive StatsError where
  | UnsetTermFrequency
  | InconsistentTermFrequency
  deriving DecidableEq, Repr

/-- Modelled from the spec: the macro `Assert` of `omassert.h` (not part of the sources at hand):
it fails fast when its condition is false and does nothing otherwise. -/
def Assert (cond : Bool) (err : StatsError) : Except StatsError Unit :=
  if cond then Except.ok () else Except.error err

/-! ## `std::map<string, doccount>` -/

/-- Key order of the entries of a `std::map`: strictly increasing keys. -/
def Ordered (l : List (String × doccount)) : Prop :=
  l.Pairwise (fun a b => a.1 < b.1)

/-- Entry walk of `std::map::find`: the value stored under `k`, `none` for `end()`. -/
def findEntries (k : String) : List (String × doccount) → Option doccount
  | [] => none
  | (k', v') :: t => if k = k' then some v' else findEntries k t

/-- Entry walk of `m[k] = f (m[k])`: `operator[]` value-initialises the entry to `0` when the key
is absent, keeping the entries in key order, and the result of `f` is written through the
reference it returns. -/
def subscriptEntries (k : String) (f : doccount → doccount) :
    List (String × doccount) → List (String × doccount)
  | [] => [(k, f 0)]
  | (k', v') :: t =>
    match compare k k' with
    | Ordering.lt => (k, f 0) :: (k', v') :: t
    | Ordering.eq => (k', f v') :: t
    | Ordering.gt => (k', v') :: subscriptEntries k f t

theorem compare_string_lt {a b : String} : compare a b = Ordering.lt ↔ a < b :=
  compare_lt_iff_lt

theorem compare_string_eq {a b : String} : compare a b = Ordering.eq ↔ a = b :=
  compare_eq_iff_eq

theorem compare_string_gt {a b : String} : compare a b = Ordering.gt ↔ b < a :=
  compare_gt_iff_gt

theorem subscriptEntries_fst_mem (k : String) (f : doccount → doccount)
    (l : List (String × doccount)) (e : String × doccount)
    (he : e ∈ subscriptEntries k f l) : e.1 = k ∨ ∃ e' ∈ l, e'.1 = e.1 := by
  induction l with
  | nil =>
    simp only [subscriptEntries, List.mem_singleton] at he
    left; rw [he]
  | cons hd t ih =>
    obtain ⟨k', v'⟩ := hd
    simp only [subscriptEntries] at he
    split at he
    · rcases List.mem_cons.mp he with h | h
      · left; rw [h]
      · right; exact ⟨e, h, rfl⟩
    · rcases List.mem_cons.mp he with h | h
      · right; exact ⟨(k', v'), List.mem_cons_self _ _, by rw [h]⟩
      · right; exact ⟨e, List.mem_cons_of_mem _ h, rfl⟩
    · rcases List.mem_cons.mp he with h | h
      · right; exact ⟨(k', v'), List.mem_cons_self _ _, by rw [h]⟩
      · rcases ih h with h1 | ⟨e', he', h2⟩
        · left; exact h1
        · right; exact ⟨e', List.mem_cons_of_mem _ he', h2⟩

theorem subscriptEntries_ordered (k : String) (f : doccount → doccount)
    (l : List (String × doccount)) (hl : Ordered l) : Ordered (subscriptEntries k f l) := by
  induction l with
  | nil => simp [subscriptEntries, Ordered]
  | cons hd t ih =>
    obtain ⟨k', v'⟩ := hd
    unfold Ordered at hl
    have hhd := (List.pairwise_cons.mp hl).1
    have htl := (List.pairwise_cons.mp hl).2
    simp only [subscriptEntries]
    split
    · rename_i hc
      have hlt : k < k' := compare_string_lt.mp hc
      refine List.pairwise_cons.mpr ⟨?_, hl⟩
      intro e he
      rcases List.mem_cons.mp he with h | h
      · rw [h]; exact hlt
      · exact lt_trans hlt (hhd e h)
    · exact List.pairwise_cons.mpr ⟨hhd, htl⟩
    · rename_i hc
      have hgt : k' < k := compare_string_gt.mp hc
      refine List.pairwise_cons.mpr ⟨?_, ih htl⟩
      intro e he
      rcases subscriptEntries_fst_mem k f t e he with h | ⟨e', he', h⟩
      · rw [h]; exact hgt
      · rw [← h]; exact hhd e' he'

/-- A `std::map<string, Xapian::doccount>`: its entries, kept in strictly increasing key order. -/
structure StdMap where
  entries : List (String × doccount)
  ordered : Ordered entries

namespace StdMap

/-- The map a default constructor leaves: no entry. -/
def empty : StdMap := ⟨[], List.Pairwise.nil⟩

/-- The call `m.find(k)`: `some` of the value under `k`, `none` for `m.end()`. -/
def find (m : StdMap) (k : String) : Option doccount :=
  findEntries k m.entries

/-- The statement `m[k] = f (m[k])`, with `m[k]` value-initialised to `0` when absent. -/
def subscript (m : StdMap) (k : String) (f : doccount → doccount) : StdMap :=
  ⟨subscriptEntries k f m.entries, subscriptEntries_ordered k f m.entries m.ordered⟩

/-- The key set of the map: `i->first` for every entry, from `begin()` to `end()`. -/
def keys (m : StdMap) : List String :=
  m.entries.map Prod.fst

end StdMap

/-! ## `class Stats` -/

/-- Class to hold statistics for a given collection. -/
structure Stats where
  collection_size : doccount
  rset_size : doccount
  average_length : doclength
  termfreq : StdMap
  reltermfreq : StdMap

namespace Stats

/-- The constructor `Stats()`. -/
def new : Stats :=
  { collection_size := 0, rset_size := 0, average_length := 1,
    termfreq := StdMap.empty, reltermfreq := StdMap.empty }

/-- The loop `for (i = inc.begin(); i != inc.end(); ++i) m[i->first] += i->second;`. -/
def add_entries (m : StdMap) (inc : StdMap) : StdMap :=
  inc.entries.foldl (fun acc e => acc.subscript e.1 (fun x => x + e.2)) m

/-- `Stats::operator+=`: add in the supplied statistics from a sub-database. -/
def operator_plus_assign (self inc : Stats) : Stats :=
  let new_collection_size : doccount := self.collection_size + inc.collection_size
  let average_length : doclength :=
    if new_collection_size ≠ 0 then
      (self.average_length * (self.collection_size : doclength) +
        inc.average_length * (inc.collection_size : doclength)) /
        (new_collection_size : doclength)
    else self.average_length
  { collection_size := new_collection_size
    rset_size := self.rset_size + inc.rset_size
    average_length := average_length
    termfreq := add_entries self.termfreq inc.termfreq
    reltermfreq := add_entries self.reltermfreq inc.reltermfreq }

/-- `Stats::get_termfreq`. -/
def get_termfreq (self : Stats) (tname : String) : Except StatsError doccount :=
  if tname.isEmpty then Except.ok 0
  else
    let tfreq := self.termfreq.find tname
    match Assert tfreq.isSome StatsError.UnsetTermFrequency with
    | Except.error e => Except.error e
    | Except.ok _ => Except.ok (tfreq.getD 0)

/-- `Stats::set_termfreq`: the outcome of the `Assert` and the accumulator afterwards. -/
def set_termfreq (self : Stats) (tname : String) (tfreq : doccount) :
    Except StatsError Unit × Stats :=
  match Assert (self.termfreq.find tname == none || self.termfreq.find tname == some tfreq)
      StatsError.InconsistentTermFrequency with
  | Except.error e => (Except.error e, self)
  | Except.ok _ => (Except.ok (), { self with termfreq := self.termfreq.subscript tname (fun _ => tfreq) })

/-- `Stats::get_reltermfreq`. -/
def get_reltermfreq (self : Stats) (tname : String) : Except StatsError doccount :=
  if tname.isEmpty then Except.ok 0
  else
    let rtfreq := self.reltermfreq.find tname
    match Assert rtfreq.isSome StatsError.UnsetTermFrequency with
    | Except.error e => Except.error e
    | Except.ok _ => Except.ok (rtfreq.getD 0)

/-- `Stats::set_reltermfreq`: the outcome of the `Assert` and the accumulator afterwards. -/
def set_reltermfreq (self : Stats) (tname : String) (rtfreq : doccount) :
    Except StatsError Unit × Stats :=
  match Assert (self.reltermfreq.find tname == none || self.reltermfreq.find tname == some rtfreq)
      StatsError.InconsistentTermFrequency with
  | Except.error e => (Except.error e, self)
  | Except.ok _ =>
    (Except.ok (), { self with reltermfreq := self.reltermfreq.subscript tname (fun _ => rtfreq) })

end Stats

/-! ## Sequences of operations on one instance -/

/-- A mutating call on an accumulator: one of the two setters, or `operator+=`. -/
inductive Op where
  | set_termfreq (tname : String) (tfreq : doccount)
  | set_reltermfreq (tname : String) (rtfreq : doccount)
  | merge_from (inc : Stats)

/-- The accumulator after one successful call; `none` when the call's `Assert` fails. -/
def Op.apply (s : Stats) : Op → Option Stats
  | Op.set_termfreq tname tfreq =>
    match s.set_termfreq tname tfreq with
    | (Except.ok _, s') => some s'
    | (Except.error _, _) => none
  | Op.set_reltermfreq tname rtfreq =>
    match s.set_reltermfreq tname rtfreq with
    | (Except.ok _, s') => some s'
    | (Except.error _, _) => none
  | Op.merge_from inc => some (s.operator_plus_assign inc)

/-- The accumulator after a sequence of successful calls, `none` as soon as one of them fails. -/
def run (s : Stats) : List Op → Option Stats
  | [] => some s
  | op :: ops =>
    match op.apply s with
    | some s' => run s' ops
    | none => none

/-- The sum of the `termfreq` entries under `t` (0 when absent) of the accumulators merged in
by a sequence of calls. -/
def merged_termfreq (t : String) : List Op → doccount
  | [] => 0
  | Op.merge_from inc :: ops => (inc.termfreq.find t).getD 0 + merged_termfreq t ops
  | _ :: ops => merged_termfreq t ops

/-- The sum of the `reltermfreq` entries under `t` (0 when absent) of the accumulators merged in
by a sequence of calls. -/
def merged_reltermfreq (t : String) : List Op → doccount
  | [] => 0
  | Op.merge_from inc :: ops => (inc.reltermfreq.find t).getD 0 + merged_reltermfreq t ops
  | _ :: ops => merged_reltermfreq t ops

/-- Merging the accumulators of a list into `X` one after another: a left fold of `operator+=`. -/
def merge_all (X : Stats) (l : List Stats) : Stats :=
  l.foldl Stats.operator_plus_assign X

/-! ## The two shards of the merge scenario -/

/-- Shard A: 10 documents of average length 100, `cat` in 3 of them. -/
def shardA : Stats :=
  { collection_size := 10, rset_size := 2, average_length := 100,
    termfreq := StdMap.empty.subscript "cat" (fun _ => 3),
    reltermfreq := StdMap.empty.subscript "cat" (fun _ => 1) }

/-- Shard B: 20 documents of average length 160, `cat` in 7 of them and `dog` in 2. -/
def shardB : Stats :=
  { collection_size := 20, rset_size := 4, average_length := 160,
    termfreq := (StdMap.empty.subscript "dog" (fun _ => 2)).subscript "cat" (fun _ => 7),
    reltermfreq := (StdMap.empty.subscript "dog" (fun _ => 1)).subscript "cat" (fun _ => 2) }

/-- A sequence of calls made after `set_termfreq "cat" 3` on a fresh accumulator: the same set
again, a set of the relevant-set frequency, and a merge of shard B. -/
def sampleCalls : List Op :=
  [Op.set_termfreq "cat" 3, Op.set_reltermfreq "cat" 1, Op.merge_from shardB]

/-- The accumulator the calls of `sampleCalls` leave. -/
def sampleAfter : Stats :=
  ((((Stats.new.set_termfreq "cat" 3).2.set_termfreq "cat" 3).2.set_reltermfreq
    "cat" 1).2).operator_plus_assign shardB

/-- A sub-database that holds no document yet and reports the average length 0. -/
def emptyShard : Stats :=
  { collection_size := 0, rset_size := 0, average_length := 0,
    termfreq := StdMap.empty, reltermfreq := StdMap.empty }

/-- Shard C: 5 documents of average length 40, `dog` in 1 of them and `emu` in 4. -/
def shardC : Stats :=
  { collection_size := 5, rset_size := 1, average_length := 40,
    termfreq := (StdMap.empty.subscript "emu" (fun _ => 4)).subscript "dog" (fun _ => 1),
    reltermfreq := StdMap.empty.subscript "emu" (fun _ => 1) }

/-- Consistency of the statistics: the relevant set lies within the collection, no term
frequency exceeds the collection size and no relevant term frequency the relevant-set size. -/
def Consistent (s : Stats) : Prop :=
  s.rset_size ≤ s.collection_size ∧
  (∀ e ∈ s.termfreq.entries, e.2 ≤ s.collection_size) ∧
  (∀ e ∈ s.reltermfreq.entries, e.2 ≤ s.rset_size)

instance (s : Stats) : Decidable (Consistent s) := by
  unfold Consistent
  infer_instance

/-! ## Lemmas on `std::map` -/

theorem findEntries_none_of_lt (k : String) (l : List (String × doccount))
    (h : ∀ e ∈ l, k < e.1) : findEntries k l = none := by
  induction l with
  | nil => rfl
  | cons hd t ih =>
    obtain ⟨k', v'⟩ := hd
    have h1 : k < k' := h (k', v') (List.mem_cons_self _ _)
    have h2 : k ≠ k' := ne_of_lt h1
    simp only [findEntries, h2, if_false]
    exact ih (fun e he => h e (List.mem_cons_of_mem _ he))

theorem findEntries_none_of_gt (k : String) (l : List (String × doccount))
    (h : ∀ e ∈ l, e.1 < k) : findEntries k l = none := by
  induction l with
  | nil => rfl
  | cons hd t ih =>
    obtain ⟨k', v'⟩ := hd
    have h1 : k' < k := h (k', v') (List.mem_cons_self _ _)
    have h2 : k ≠ k' := ne_of_gt h1
    simp only [findEntries, h2, if_false]
    exact ih (fun e he => h e (List.mem_cons_of_mem _ he))

theorem findEntries_subscript_self (k : String) (f : doccount → doccount)
    (l : List (String × doccount)) (hl : Ordered l) :
    findEntries k (subscriptEntries k f l) = some (f ((findEntries k l).getD 0)) := by
  induction l with
  | nil => simp [subscriptEntries, findEntries]
  | cons hd t ih =>
    obtain ⟨k', v'⟩ := hd
    unfold Ordered at hl
    have hhd := (List.pairwise_cons.mp hl).1
    have htl := (List.pairwise_cons.mp hl).2
    simp only [subscriptEntries]
    split
    · rename_i hc
      have hlt : k < k' := compare_string_lt.mp hc
      have hnone : findEntries k ((k', v') :: t) = none := by
        apply findEntries_none_of_lt
        intro e he
        rcases List.mem_cons.mp he with h | h
        · rw [h]; exact hlt
        · exact lt_trans hlt (hhd e h)
      rw [hnone]
      simp [findEntries]
    · rename_i hc
      have heq : k = k' := compare_string_eq.mp hc
      simp [findEntries, heq]
    · rename_i hc
      have hgt : k' < k := compare_string_gt.mp hc
      have hne : k ≠ k' := ne_of_gt hgt
      simp only [findEntries, hne, if_false]
      exact ih htl

theorem findEntries_subscript_ne (k k2 : String) (f : doccount → doccount)
    (l : List (String × doccount)) (hne : k2 ≠ k) :
    findEntries k2 (subscriptEntries k f l) = findEntries k2 l := by
  induction l with
  | nil => simp [subscriptEntries, findEntries, hne]
  | cons hd t ih =>
    obtain ⟨k', v'⟩ := hd
    simp only [subscriptEntries]
    split
    · simp [findEntries, hne]
    · rename_i hc
      have heq : k = k' := compare_string_eq.mp hc
      have hne2 : k2 ≠ k' := heq ▸ hne
      simp [findEntries, hne2]
    · simp only [findEntries]
      rw [ih]

theorem findEntries_eq_some_iff_mem (k : String) (v : doccount) (l : List (String × doccount))
    (hl : Ordered l) : findEntries k l = some v ↔ (k, v) ∈ l := by
  induction l with
  | nil => simp [findEntries]
  | cons hd t ih =>
    obtain ⟨k', v'⟩ := hd
    unfold Ordered at hl
    have hhd := (List.pairwise_cons.mp hl).1
    have htl := (List.pairwise_cons.mp hl).2
    by_cases hk : k = k'
    · subst hk
      simp only [findEntries, if_true, Option.some.injEq, List.mem_cons, Prod.mk.injEq, true_and]
      constructor
      · intro h; left; exact h.symm
      · rintro (h | h)
        · exact h.symm
        · exact absurd (hhd (k, v) h) (lt_irrefl _)
    · simp only [findEntries, hk, if_false, List.mem_cons, Prod.mk.injEq, false_and, false_or]
      exact ih htl

theorem entries_eq_of_findEntries_eq (l₁ l₂ : List (String × doccount))
    (h₁ : Ordered l₁) (h₂ : Ordered l₂)
    (h : ∀ k, findEntries k l₁ = findEntries k l₂) : l₁ = l₂ := by
  have hmem : ∀ e, e ∈ l₁ ↔ e ∈ l₂ := by
    rintro ⟨k, v⟩
    rw [← findEntries_eq_some_iff_mem k v l₁ h₁, ← findEntries_eq_some_iff_mem k v l₂ h₂, h k]
  have hlt : ∀ a b : String × doccount, a.1 < b.1 → Prod.Lex (· < ·) (· < ·) a b := by
    intro a b hab
    exact Prod.Lex.left _ _ hab
  have s₁ : l₁.Sorted (fun a b : String × doccount => a.1 < b.1) := h₁
  have s₂ : l₂.Sorted (fun a b : String × doccount => a.1 < b.1) := h₂
  have hperm : l₁.Perm l₂ := by
    apply (List.perm_ext_iff_of_nodup ?_ ?_).mpr hmem
    · exact List.Pairwise.imp (fun hab heq => by rw [heq] at hab; exact lt_irrefl _ hab) h₁
    · exact List.Pairwise.imp (fun hab heq => by rw [heq] at hab; exact lt_irrefl _ hab) h₂
  haveI : IsAntisymm (String × doccount) (fun a b => a.1 < b.1) :=
    ⟨fun a b hab hba => absurd (lt_trans hab hba) (lt_irrefl _)⟩
  exact List.eq_of_perm_of_sorted hperm s₁ s₂

namespace StdMap

theorem ext_entries {m₁ m₂ : StdMap} (h : m₁.entries = m₂.entries) : m₁ = m₂ := by
  cases m₁; cases m₂; cases h; rfl

theorem ext_find {m₁ m₂ : StdMap} (h : ∀ k, m₁.find k = m₂.find k) : m₁ = m₂ :=
  ext_entries (entries_eq_of_findEntries_eq _ _ m₁.ordered m₂.ordered h)

theorem find_empty (k : String) : empty.find k = none := rfl

theorem mem_keys_iff (m : StdMap) (k : String) : k ∈ m.keys ↔ (m.find k).isSome = true := by
  obtain ⟨l, hl⟩ := m
  simp only [keys, find]
  clear hl
  induction l with
  | nil => simp [findEntries]
  | cons hd t ih =>
    obtain ⟨k', v'⟩ := hd
    by_cases hk : k = k'
    · simp [findEntries, hk]
    · simp only [List.map_cons, List.mem_cons, hk, false_or, findEntries, if_false]
      exact ih

theorem find_subscript_self (m : StdMap) (k : String) (f : doccount → doccount) :
    (m.subscript k f).find k = some (f ((m.find k).getD 0)) :=
  findEntries_subscript_self k f m.entries m.ordered

theorem find_subscript_ne (m : StdMap) (k k2 : String) (f : doccount → doccount)
    (hne : k2 ≠ k) : (m.subscript k f).find k2 = m.find k2 :=
  findEntries_subscript_ne k k2 f m.entries hne

end StdMap

namespace Stats

/-! ## Lemmas on the merge loop -/

theorem find_foldl_subscript (k : String) (l : List (String × doccount)) (hl : Ordered l)
    (m : StdMap) :
    (l.foldl (fun acc e => acc.subscript e.1 (fun x => x + e.2)) m).find k =
      if m.find k = none ∧ findEntries k l = none then none
      else some ((m.find k).getD 0 + (findEntries k l).getD 0) := by
  induction l generalizing m with
  | nil =>
    cases hm : m.find k <;> simp [findEntries, hm]
  | cons hd t ih =>
    obtain ⟨k', v'⟩ := hd
    unfold Ordered at hl
    have hhd := (List.pairwise_cons.mp hl).1
    have htl := (List.pairwise_cons.mp hl).2
    rw [List.foldl_cons, ih htl]
    by_cases hk : k = k'
    · subst hk
      have hnone : findEntries k t = none :=
        findEntries_none_of_lt k t (fun e he => hhd e he)
      simp [StdMap.find_subscript_self, findEntries, hnone]
    · simp [StdMap.find_subscript_ne _ k' k _ hk, findEntries, hk]

theorem find_add_entries (m inc : StdMap) (k : String) :
    (add_entries m inc).find k =
      if m.find k = none ∧ inc.find k = none then none
      else some ((m.find k).getD 0 + (inc.find k).getD 0) :=
  find_foldl_subscript k inc.entries inc.ordered m

theorem average_length_eq (A B : Stats) :
    (A.operator_plus_assign B).average_length =
      if A.collection_size + B.collection_size = 0 then A.average_length
      else (A.average_length * (A.collection_size : ℚ) +
          B.average_length * (B.collection_size : ℚ)) /
        ((A.collection_size : ℚ) + (B.collection_size : ℚ)) := by
  by_cases h : A.collection_size + B.collection_size = 0
  · simp [operator_plus_assign, h]
  · simp only [operator_plus_assign, ne_eq, h, not_false_eq_true, if_true, if_false]
    rw [Nat.cast_add]

/-! ## Lemmas on the accessors -/

theorem isEmpty_eq_true_iff (t : String) : t.isEmpty = true ↔ t = "" :=
  String.isEmpty_iff t

theorem get_termfreq_empty (s : Stats) : s.get_termfreq "" = Except.ok 0 := rfl

theorem get_reltermfreq_empty (s : Stats) : s.get_reltermfreq "" = Except.ok 0 := rfl

theorem get_termfreq_of_some (s : Stats) (t : String) (v : doccount) (ht : t ≠ "")
    (h : s.termfreq.find t = some v) : s.get_termfreq t = Except.ok v := by
  have h1 : t.isEmpty = false := by
    rw [← Bool.not_eq_true, isEmpty_eq_true_iff]; exact ht
  simp [get_termfreq, h1, h, Assert]

theorem get_termfreq_of_none (s : Stats) (t : String) (ht : t ≠ "")
    (h : s.termfreq.find t = none) :
    s.get_termfreq t = Except.error StatsError.UnsetTermFrequency := by
  have h1 : t.isEmpty = false := by
    rw [← Bool.not_eq_true, isEmpty_eq_true_iff]; exact ht
  simp [get_termfreq, h1, h, Assert]

theorem get_reltermfreq_of_some (s : Stats) (t : String) (v : doccount) (ht : t ≠ "")
    (h : s.reltermfreq.find t = some v) : s.get_reltermfreq t = Except.ok v := by
  have h1 : t.isEmpty = false := by
    rw [← Bool.not_eq_true, isEmpty_eq_true_iff]; exact ht
  simp [get_reltermfreq, h1, h, Assert]

theorem get_reltermfreq_of_none (s : Stats) (t : String) (ht : t ≠ "")
    (h : s.reltermfreq.find t = none) :
    s.get_reltermfreq t = Except.error StatsError.UnsetTermFrequency := by
  have h1 : t.isEmpty = false := by
    rw [← Bool.not_eq_true, isEmpty_eq_true_iff]; exact ht
  simp [get_reltermfreq, h1, h, Assert]

theorem set_termfreq_of_none (s : Stats) (t : String) (c : doccount)
    (h : s.termfreq.find t = none) :
    s.set_termfreq t c =
      (Except.ok (), { s with termfreq := s.termfreq.subscript t (fun _ => c) }) := by
  simp [set_termfreq, h, Assert]

theorem set_termfreq_of_same (s : Stats) (t : String) (c : doccount)
    (h : s.termfreq.find t = some c) :
    s.set_termfreq t c =
      (Except.ok (), { s with termfreq := s.termfreq.subscript t (fun _ => c) }) := by
  simp [set_termfreq, h, Assert]

theorem set_termfreq_of_differs (s : Stats) (t : String) (c v : doccount)
    (h : s.termfreq.find t = some v) (hv : v ≠ c) :
    s.set_termfreq t c = (Except.error StatsError.InconsistentTermFrequency, s) := by
  simp [set_termfreq, h, Assert, hv]

theorem set_reltermfreq_of_none (s : Stats) (t : String) (c : doccount)
    (h : s.reltermfreq.find t = none) :
    s.set_reltermfreq t c =
      (Except.ok (), { s with reltermfreq := s.reltermfreq.subscript t (fun _ => c) }) := by
  simp [set_reltermfreq, h, Assert]

theorem set_reltermfreq_of_same (s : Stats) (t : String) (c : doccount)
    (h : s.reltermfreq.find t = some c) :
    s.set_reltermfreq t c =
      (Except.ok (), { s with reltermfreq := s.reltermfreq.subscript t (fun _ => c) }) := by
  simp [set_reltermfreq, h, Assert]

theorem set_reltermfreq_of_differs (s : Stats) (t : String) (c v : doccount)
    (h : s.reltermfreq.find t = some v) (hv : v ≠ c) :
    s.set_reltermfreq t c = (Except.error StatsError.InconsistentTermFrequency, s) := by
  simp [set_reltermfreq, h, Assert, hv]

theorem subscript_const_of_find (m : StdMap) (t : String) (c : doccount)
    (h : m.find t = some c) : m.subscript t (fun _ => c) = m := by
  apply StdMap.ext_find
  intro k
  by_cases hk : k = t
  · subst hk
    rw [StdMap.find_subscript_self, h]
  · exact StdMap.find_subscript_ne m t k _ hk

end Stats

namespace Stats

/-! ## Properties of `operator+=` -/

/-- C1: after `A += B` the collection size is `A.collection_size + B.collection_size` and the
relevant-set size is `A.rset_size + B.rset_size`. -/
theorem merge_sizes_add (A B : Stats) :
    (A.operator_plus_assign B).collection_size = A.collection_size + B.collection_size ∧
    (A.operator_plus_assign B).rset_size = A.rset_size + B.rset_size :=
  ⟨rfl, rfl⟩

/-- C2: after `A += B` each frequency map is the key-wise sum of the two input maps, a missing
key counting as 0: the key set of the result is the union of the two key sets, every key holds
the sum of the two sides, and `get_termfreq` (`get_reltermfreq`) of a non-empty term present on
either side succeeds with that sum. -/
theorem merge_maps_keywise_sum (A B : Stats) (k : String) :
    ((A.operator_plus_assign B).termfreq.find k =
      if A.termfreq.find k = none ∧ B.termfreq.find k = none then none
      else some ((A.termfreq.find k).getD 0 + (B.termfreq.find k).getD 0)) ∧
    ((A.operator_plus_assign B).reltermfreq.find k =
      if A.reltermfreq.find k = none ∧ B.reltermfreq.find k = none then none
      else some ((A.reltermfreq.find k).getD 0 + (B.reltermfreq.find k).getD 0)) ∧
    (k ∈ (A.operator_plus_assign B).termfreq.keys ↔ k ∈ A.termfreq.keys ∨ k ∈ B.termfreq.keys) ∧
    (k ∈ (A.operator_plus_assign B).reltermfreq.keys ↔
      k ∈ A.reltermfreq.keys ∨ k ∈ B.reltermfreq.keys) ∧
    (k ≠ "" → k ∈ A.termfreq.keys ∨ k ∈ B.termfreq.keys →
      (A.operator_plus_assign B).get_termfreq k =
        Except.ok ((A.termfreq.find k).getD 0 + (B.termfreq.find k).getD 0)) ∧
    (k ≠ "" → k ∈ A.reltermfreq.keys ∨ k ∈ B.reltermfreq.keys →
      (A.operator_plus_assign B).get_reltermfreq k =
        Except.ok ((A.reltermfreq.find k).getD 0 + (B.reltermfreq.find k).getD 0)) := by
  have ht : (A.operator_plus_assign B).termfreq.find k =
      if A.termfreq.find k = none ∧ B.termfreq.find k = none then none
      else some ((A.termfreq.find k).getD 0 + (B.termfreq.find k).getD 0) :=
    find_add_entries A.termfreq B.termfreq k
  have hr : (A.operator_plus_assign B).reltermfreq.find k =
      if A.reltermfreq.find k = none ∧ B.reltermfreq.find k = none then none
      else some ((A.reltermfreq.find k).getD 0 + (B.reltermfreq.find k).getD 0) :=
    find_add_entries A.reltermfreq B.reltermfreq k
  have kt : k ∈ (A.operator_plus_assign B).termfreq.keys ↔
      k ∈ A.termfreq.keys ∨ k ∈ B.termfreq.keys := by
    rw [StdMap.mem_keys_iff, StdMap.mem_keys_iff, StdMap.mem_keys_iff, ht]
    cases A.termfreq.find k <;> cases B.termfreq.find k <;> simp
  have kr : k ∈ (A.operator_plus_assign B).reltermfreq.keys ↔
      k ∈ A.reltermfreq.keys ∨ k ∈ B.reltermfreq.keys := by
    rw [StdMap.mem_keys_iff, StdMap.mem_keys_iff, StdMap.mem_keys_iff, hr]
    cases A.reltermfreq.find k <;> cases B.reltermfreq.find k <;> simp
  refine ⟨ht, hr, kt, kr, ?_, ?_⟩
  · intro hk hmem
    apply get_termfreq_of_some _ _ _ hk
    rw [ht, if_neg]
    rw [StdMap.mem_keys_iff, StdMap.mem_keys_iff] at hmem
    rintro ⟨h1, h2⟩
    rw [h1, h2] at hmem
    simp at hmem
  · intro hk hmem
    apply get_reltermfreq_of_some _ _ _ hk
    rw [hr, if_neg]
    rw [StdMap.mem_keys_iff, StdMap.mem_keys_iff] at hmem
    rintro ⟨h1, h2⟩
    rw [h1, h2] at hmem
    simp at hmem

/-- C2, on the scenario: `{cat:3}` merged with `{cat:7, dog:2}` gives `{cat:10, dog:2}`, and
`get_termfreq "cat"` on the result returns 10. -/
theorem merge_maps_keywise_sum_witness :
    "cat" ≠ "" ∧ ("cat" ∈ shardA.termfreq.keys ∨ "cat" ∈ shardB.termfreq.keys) ∧
    (shardA.operator_plus_assign shardB).get_termfreq "cat" = Except.ok 10 ∧
    (shardA.operator_plus_assign shardB).termfreq.entries = [("cat", 10), ("dog", 2)] :=
  ⟨by decide, Or.inl (by decide),
    (merge_maps_keywise_sum shardA shardB "cat").2.2.2.2.1 (by decide) (Or.inl (by decide)),
    by decide⟩

/-- C3: with the average length an exact rational, after `A += B` the average length is that of
`A` when the new collection size is 0, and otherwise the size-weighted mean
`(A.average_length * A.collection_size + B.average_length * B.collection_size) /
(A.collection_size + B.collection_size)`. -/
theorem merge_average_length (A B : Stats) :
    (A.operator_plus_assign B).average_length =
      if A.collection_size + B.collection_size = 0 then A.average_length
      else (A.average_length * (A.collection_size : ℚ) +
          B.average_length * (B.collection_size : ℚ)) /
        ((A.collection_size : ℚ) + (B.collection_size : ℚ)) :=
  average_length_eq A B

/-- C3, on the scenario: sizes 10 and 20 with averages 100 and 160 give the average 140. -/
theorem merge_average_length_witness :
    (shardA.operator_plus_assign shardB).average_length = 140 := by
  rw [merge_average_length shardA shardB]
  norm_num [shardA, shardB]

/-! ## Properties of the accessors -/

/-- C4: `get_termfreq t` fails (with `UnsetTermFrequency`, the `Assert`) exactly when `t` is
non-empty and `termfreq` has no entry for `t`; for a non-empty `t` with an entry it returns the
stored value. The same holds for `get_reltermfreq` over `reltermfreq`. -/
theorem get_fails_iff_unset (s : Stats) (t : String) :
    ((s.get_termfreq t = Except.error StatsError.UnsetTermFrequency ↔
        t ≠ "" ∧ s.termfreq.find t = none) ∧
      ((∃ e, s.get_termfreq t = Except.error e) ↔ t ≠ "" ∧ s.termfreq.find t = none) ∧
      (∀ v, t ≠ "" → s.termfreq.find t = some v → s.get_termfreq t = Except.ok v)) ∧
    ((s.get_reltermfreq t = Except.error StatsError.UnsetTermFrequency ↔
        t ≠ "" ∧ s.reltermfreq.find t = none) ∧
      ((∃ e, s.get_reltermfreq t = Except.error e) ↔ t ≠ "" ∧ s.reltermfreq.find t = none) ∧
      (∀ v, t ≠ "" → s.reltermfreq.find t = some v → s.get_reltermfreq t = Except.ok v)) := by
  refine ⟨⟨?_, ?_, fun v ht h => get_termfreq_of_some s t v ht h⟩,
    ⟨?_, ?_, fun v ht h => get_reltermfreq_of_some s t v ht h⟩⟩
  · by_cases ht : t = ""
    · subst ht; simp [get_termfreq_empty]
    · cases h : s.termfreq.find t with
      | none => simp [get_termfreq_of_none s t ht h, ht]
      | some v => simp [get_termfreq_of_some s t v ht h]
  · by_cases ht : t = ""
    · subst ht; simp [get_termfreq_empty]
    · cases h : s.termfreq.find t with
      | none => simp [get_termfreq_of_none s t ht h, ht]
      | some v => simp [get_termfreq_of_some s t v ht h]
  · by_cases ht : t = ""
    · subst ht; simp [get_reltermfreq_empty]
    · cases h : s.reltermfreq.find t with
      | none => simp [get_reltermfreq_of_none s t ht h, ht]
      | some v => simp [get_reltermfreq_of_some s t v ht h]
  · by_cases ht : t = ""
    · subst ht; simp [get_reltermfreq_empty]
    · cases h : s.reltermfreq.find t with
      | none => simp [get_reltermfreq_of_none s t ht h, ht]
      | some v => simp [get_reltermfreq_of_some s t v ht h]

/-- C4, on shard A: `cat` is set and read back as 3 (1 in the relevant set), while `bar` is unset
and both getters fail on it. -/
theorem get_fails_iff_unset_witness :
    ("cat" ≠ "" ∧ shardA.termfreq.find "cat" = some 3 ∧
      shardA.get_termfreq "cat" = Except.ok 3) ∧
    ("cat" ≠ "" ∧ shardA.reltermfreq.find "cat" = some 1 ∧
      shardA.get_reltermfreq "cat" = Except.ok 1) ∧
    ("bar" ≠ "" ∧ shardA.termfreq.find "bar" = none ∧
      shardA.get_termfreq "bar" = Except.error StatsError.UnsetTermFrequency) ∧
    ("bar" ≠ "" ∧ shardA.reltermfreq.find "bar" = none ∧
      shardA.get_reltermfreq "bar" = Except.error StatsError.UnsetTermFrequency) :=
  ⟨⟨by decide, by decide,
      (get_fails_iff_unset shardA "cat").1.2.2 3 (by decide) (by decide)⟩,
    ⟨by decide, by decide,
      (get_fails_iff_unset shardA "cat").2.2.2 1 (by decide) (by decide)⟩,
    ⟨by decide, by decide,
      (get_fails_iff_unset shardA "bar").1.1.mpr ⟨by decide, by decide⟩⟩,
    ⟨by decide, by decide,
      (get_fails_iff_unset shardA "bar").2.1.mpr ⟨by decide, by decide⟩⟩⟩

/-- C5: `set_termfreq t c` fails (with `InconsistentTermFrequency`, the `Assert`) exactly when
`termfreq` already has an entry for `t` whose value differs from `c`, and then the accumulator
is left unchanged; in every other case it succeeds and `termfreq` maps `t` to `c` afterwards.
The same holds for `set_reltermfreq` over `reltermfreq`. -/
theorem set_fails_iff_inconsistent (s : Stats) (t : String) (c : doccount) :
    (((s.set_termfreq t c).1 = Except.error StatsError.InconsistentTermFrequency ↔
        ∃ v, s.termfreq.find t = some v ∧ v ≠ c) ∧
      ((∃ e, (s.set_termfreq t c).1 = Except.error e) ↔
        ∃ v, s.termfreq.find t = some v ∧ v ≠ c) ∧
      ((¬ ∃ v, s.termfreq.find t = some v ∧ v ≠ c) →
        (s.set_termfreq t c).1 = Except.ok () ∧
        (s.set_termfreq t c).2.termfreq.find t = some c) ∧
      ((∃ v, s.termfreq.find t = some v ∧ v ≠ c) → (s.set_termfreq t c).2 = s)) ∧
    (((s.set_reltermfreq t c).1 = Except.error StatsError.InconsistentTermFrequency ↔
        ∃ v, s.reltermfreq.find t = some v ∧ v ≠ c) ∧
      ((∃ e, (s.set_reltermfreq t c).1 = Except.error e) ↔
        ∃ v, s.reltermfreq.find t = some v ∧ v ≠ c) ∧
      ((¬ ∃ v, s.reltermfreq.find t = some v ∧ v ≠ c) →
        (s.set_reltermfreq t c).1 = Except.ok () ∧
        (s.set_reltermfreq t c).2.reltermfreq.find t = some c) ∧
      ((∃ v, s.reltermfreq.find t = some v ∧ v ≠ c) → (s.set_reltermfreq t c).2 = s)) := by
  constructor
  · cases h : s.termfreq.find t with
    | none =>
      simp [set_termfreq_of_none s t c h, StdMap.find_subscript_self]
    | some v =>
      by_cases hv : v = c
      · subst hv
        simp [set_termfreq_of_same s t v h, StdMap.find_subscript_self]
      · simp [set_termfreq_of_differs s t c v h hv, hv]
  · cases h : s.reltermfreq.find t with
    | none =>
      simp [set_reltermfreq_of_none s t c h, StdMap.find_subscript_self]
    | some v =>
      by_cases hv : v = c
      · subst hv
        simp [set_reltermfreq_of_same s t v h, StdMap.find_subscript_self]
      · simp [set_reltermfreq_of_differs s t c v h hv, hv]

/-- C5, on shard A, which holds `cat ↦ 3`: setting `cat` to 6 fails and leaves the accumulator
as it was, while setting the unset `foo` to 5 succeeds and records it. -/
theorem set_fails_iff_inconsistent_witness :
    (∃ v, shardA.termfreq.find "cat" = some v ∧ v ≠ 6) ∧
    (shardA.set_termfreq "cat" 6).1 = Except.error StatsError.InconsistentTermFrequency ∧
    (shardA.set_termfreq "cat" 6).2 = shardA ∧
    (¬ ∃ v, shardA.termfreq.find "foo" = some v ∧ v ≠ 5) ∧
    ((shardA.set_termfreq "foo" 5).1 = Except.ok () ∧
      (shardA.set_termfreq "foo" 5).2.termfreq.find "foo" = some 5) :=
  ⟨⟨3, by decide, by decide⟩,
    (set_fails_iff_inconsistent shardA "cat" 6).1.1.mpr ⟨3, by decide, by decide⟩,
    (set_fails_iff_inconsistent shardA "cat" 6).1.2.2.2 ⟨3, by decide, by decide⟩,
    (by
      rintro ⟨v, hv, _⟩
      have hn : shardA.termfreq.find "foo" = none := by decide
      rw [hn] at hv
      exact Option.noConfusion hv),
    (set_fails_iff_inconsistent shardA "foo" 5).1.2.2.1
      (by
      rintro ⟨v, hv, _⟩
      have hn : shardA.termfreq.find "foo" = none := by decide
      rw [hn] at hv
      exact Option.noConfusion hv)⟩

/-- C6: round trip. For a non-empty term `t` and a count `c` such that `t` has no entry or its
entry already equals `c`, `set_termfreq t c` succeeds and `get_termfreq t` then returns `c`.
The same holds for `set_reltermfreq` and `get_reltermfreq`. -/
theorem set_get_round_trip (s : Stats) (t : String) (c : doccount) (ht : t ≠ "") :
    ((s.termfreq.find t = none ∨ s.termfreq.find t = some c) →
      (s.set_termfreq t c).1 = Except.ok () ∧
      (s.set_termfreq t c).2.get_termfreq t = Except.ok c) ∧
    ((s.reltermfreq.find t = none ∨ s.reltermfreq.find t = some c) →
      (s.set_reltermfreq t c).1 = Except.ok () ∧
      (s.set_reltermfreq t c).2.get_reltermfreq t = Except.ok c) := by
  constructor
  · intro h
    have hset : s.set_termfreq t c =
        (Except.ok (), { s with termfreq := s.termfreq.subscript t (fun _ => c) }) := by
      rcases h with h | h
      · exact set_termfreq_of_none s t c h
      · exact set_termfreq_of_same s t c h
    rw [hset]
    exact ⟨rfl, get_termfreq_of_some _ t c ht (StdMap.find_subscript_self _ _ _)⟩
  · intro h
    have hset : s.set_reltermfreq t c =
        (Except.ok (), { s with reltermfreq := s.reltermfreq.subscript t (fun _ => c) }) := by
      rcases h with h | h
      · exact set_reltermfreq_of_none s t c h
      · exact set_reltermfreq_of_same s t c h
    rw [hset]
    exact ⟨rfl, get_reltermfreq_of_some _ t c ht (StdMap.find_subscript_self _ _ _)⟩

/-- C6, on a fresh accumulator: `set_termfreq "foo" 5` then `get_termfreq "foo"` returns 5, and
likewise for the relevant-set pair. -/
theorem set_get_round_trip_witness :
    "foo" ≠ "" ∧
    (Stats.new.termfreq.find "foo" = none ∨ Stats.new.termfreq.find "foo" = some 5) ∧
    ((Stats.new.set_termfreq "foo" 5).1 = Except.ok () ∧
      (Stats.new.set_termfreq "foo" 5).2.get_termfreq "foo" = Except.ok 5) ∧
    (Stats.new.reltermfreq.find "foo" = none ∨ Stats.new.reltermfreq.find "foo" = some 5) ∧
    ((Stats.new.set_reltermfreq "foo" 5).1 = Except.ok () ∧
      (Stats.new.set_reltermfreq "foo" 5).2.get_reltermfreq "foo" = Except.ok 5) :=
  ⟨by decide, Or.inl rfl,
    (set_get_round_trip Stats.new "foo" 5 (by decide)).1 (Or.inl rfl),
    Or.inl rfl,
    (set_get_round_trip Stats.new "foo" 5 (by decide)).2 (Or.inl rfl)⟩

theorem set_termfreq_ok_cases (s : Stats) (t : String) (c : doccount)
    (h : (s.set_termfreq t c).1 = Except.ok ()) :
    s.termfreq.find t = none ∨ s.termfreq.find t = some c := by
  cases hf : s.termfreq.find t with
  | none => exact Or.inl rfl
  | some v =>
    by_cases hv : v = c
    · exact Or.inr (by rw [hv])
    · rw [set_termfreq_of_differs s t c v hf hv] at h
      exact Except.noConfusion h

theorem set_reltermfreq_ok_cases (s : Stats) (t : String) (c : doccount)
    (h : (s.set_reltermfreq t c).1 = Except.ok ()) :
    s.reltermfreq.find t = none ∨ s.reltermfreq.find t = some c := by
  cases hf : s.reltermfreq.find t with
  | none => exact Or.inl rfl
  | some v =>
    by_cases hv : v = c
    · exact Or.inr (by rw [hv])
    · rw [set_reltermfreq_of_differs s t c v hf hv] at h
      exact Except.noConfusion h

theorem set_termfreq_ok_eq (s : Stats) (t : String) (c : doccount)
    (h : (s.set_termfreq t c).1 = Except.ok ()) :
    s.set_termfreq t c =
      (Except.ok (), { s with termfreq := s.termfreq.subscript t (fun _ => c) }) := by
  rcases set_termfreq_ok_cases s t c h with h | h
  · exact set_termfreq_of_none s t c h
  · exact set_termfreq_of_same s t c h

theorem set_reltermfreq_ok_eq (s : Stats) (t : String) (c : doccount)
    (h : (s.set_reltermfreq t c).1 = Except.ok ()) :
    s.set_reltermfreq t c =
      (Except.ok (), { s with reltermfreq := s.reltermfreq.subscript t (fun _ => c) }) := by
  rcases set_reltermfreq_ok_cases s t c h with h | h
  · exact set_reltermfreq_of_none s t c h
  · exact set_reltermfreq_of_same s t c h

theorem set_termfreq_noop (s : Stats) (t : String) (c : doccount)
    (h : s.termfreq.find t = some c) : s.set_termfreq t c = (Except.ok (), s) := by
  rw [set_termfreq_of_same s t c h, subscript_const_of_find s.termfreq t c h]

theorem set_reltermfreq_noop (s : Stats) (t : String) (c : doccount)
    (h : s.reltermfreq.find t = some c) : s.set_reltermfreq t c = (Except.ok (), s) := by
  rw [set_reltermfreq_of_same s t c h, subscript_const_of_find s.reltermfreq t c h]

/-- C7: idempotent set. When `set_termfreq t c` succeeds, a second `set_termfreq t c` succeeds
too and leaves the accumulator equal to the state after the first call; when `t` already has
an entry equal to `c` the call changes nothing in the accumulator. The same holds for
`set_reltermfreq`. -/
theorem set_idempotent (s : Stats) (t : String) (c : doccount) :
    ((s.set_termfreq t c).1 = Except.ok () →
      (s.set_termfreq t c).2.set_termfreq t c = (Except.ok (), (s.set_termfreq t c).2)) ∧
    (s.termfreq.find t = some c → s.set_termfreq t c = (Except.ok (), s)) ∧
    ((s.set_reltermfreq t c).1 = Except.ok () →
      (s.set_reltermfreq t c).2.set_reltermfreq t c =
        (Except.ok (), (s.set_reltermfreq t c).2)) ∧
    (s.reltermfreq.find t = some c → s.set_reltermfreq t c = (Except.ok (), s)) := by
  refine ⟨?_, set_termfreq_noop s t c, ?_, set_reltermfreq_noop s t c⟩
  · intro h
    rw [set_termfreq_ok_eq s t c h]
    exact set_termfreq_noop _ t c (StdMap.find_subscript_self _ _ _)
  · intro h
    rw [set_reltermfreq_ok_eq s t c h]
    exact set_reltermfreq_noop _ t c (StdMap.find_subscript_self _ _ _)

/-- C7, on shard A: setting the unset `foo` to 5 twice leaves the state of the first call, and
setting `cat`, already 3, to 3 changes nothing. -/
theorem set_idempotent_witness :
    (shardA.set_termfreq "foo" 5).1 = Except.ok () ∧
    (shardA.set_termfreq "foo" 5).2.set_termfreq "foo" 5 =
      (Except.ok (), (shardA.set_termfreq "foo" 5).2) ∧
    shardA.termfreq.find "cat" = some 3 ∧
    shardA.set_termfreq "cat" 3 = (Except.ok (), shardA) ∧
    (shardA.set_reltermfreq "foo" 5).1 = Except.ok () ∧
    (shardA.set_reltermfreq "foo" 5).2.set_reltermfreq "foo" 5 =
      (Except.ok (), (shardA.set_reltermfreq "foo" 5).2) ∧
    shardA.reltermfreq.find "cat" = some 1 ∧
    shardA.set_reltermfreq "cat" 1 = (Except.ok (), shardA) :=
  ⟨rfl, (set_idempotent shardA "foo" 5).1 rfl,
    by decide, (set_idempotent shardA "cat" 3).2.1 (by decide),
    rfl, (set_idempotent shardA "foo" 5).2.2.1 rfl,
    by decide, (set_idempotent shardA "cat" 1).2.2.2 (by decide)⟩

/-- C8: whatever the maps hold, `get_termfreq ""` and `get_reltermfreq ""` succeed and
return 0. -/
theorem get_empty_term_zero (s : Stats) :
    s.get_termfreq "" = Except.ok 0 ∧ s.get_reltermfreq "" = Except.ok 0 :=
  ⟨rfl, rfl⟩

/-- C8, on an accumulator whose two maps hold an entry under the empty-string key: the getters
still return 0 for the empty term. -/
theorem get_empty_term_zero_witness :
    ((Stats.new.set_termfreq "" 4).2.set_reltermfreq "" 9).2.termfreq.find "" = some 4 ∧
    ((Stats.new.set_termfreq "" 4).2.set_reltermfreq "" 9).2.reltermfreq.find "" = some 9 ∧
    ((Stats.new.set_termfreq "" 4).2.set_reltermfreq "" 9).2.get_termfreq "" = Except.ok 0 ∧
    ((Stats.new.set_termfreq "" 4).2.set_reltermfreq "" 9).2.get_reltermfreq "" = Except.ok 0 :=
  ⟨by decide, by decide,
    (get_empty_term_zero ((Stats.new.set_termfreq "" 4).2.set_reltermfreq "" 9).2).1,
    (get_empty_term_zero ((Stats.new.set_termfreq "" 4).2.set_reltermfreq "" 9).2).2⟩

end Stats

/-! ## Sequences of calls: what a recorded frequency becomes -/

theorem Op.apply_termfreq_find (s s' : Stats) (op : Op) (t : String) (v : doccount)
    (hv : s.termfreq.find t = some v) (h : op.apply s = some s') :
    s'.termfreq.find t = some (v + merged_termfreq t [op]) := by
  cases op with
  | set_termfreq tname tfreq =>
    simp only [Op.apply] at h
    cases hok : (s.set_termfreq tname tfreq).1 with
    | error e =>
      have : s.set_termfreq tname tfreq = (Except.error e, (s.set_termfreq tname tfreq).2) := by
        rw [← hok]
      rw [this] at h
      exact Option.noConfusion h
    | ok u =>
      have heq := Stats.set_termfreq_ok_eq s tname tfreq hok
      rw [heq] at h
      simp only [Option.some.injEq] at h
      subst h
      simp only [merged_termfreq, add_zero]
      by_cases hk : t = tname
      · subst hk
        rcases Stats.set_termfreq_ok_cases s t tfreq hok with h1 | h1
        · rw [h1] at hv; exact Option.noConfusion hv
        · rw [h1] at hv
          rw [StdMap.find_subscript_self]
          exact hv
      · rw [StdMap.find_subscript_ne _ _ _ _ hk]
        exact hv
  | set_reltermfreq tname rtfreq =>
    simp only [Op.apply] at h
    cases hok : (s.set_reltermfreq tname rtfreq).1 with
    | error e =>
      have : s.set_reltermfreq tname rtfreq =
          (Except.error e, (s.set_reltermfreq tname rtfreq).2) := by
        rw [← hok]
      rw [this] at h
      exact Option.noConfusion h
    | ok u =>
      have heq := Stats.set_reltermfreq_ok_eq s tname rtfreq hok
      rw [heq] at h
      simp only [Option.some.injEq] at h
      subst h
      simp only [merged_termfreq, add_zero]
      exact hv
  | merge_from inc =>
    simp only [Op.apply, Option.some.injEq] at h
    subst h
    have := Stats.find_add_entries s.termfreq inc.termfreq t
    simp only [merged_termfreq, add_zero]
    show (Stats.add_entries s.termfreq inc.termfreq).find t = _
    rw [this, hv]
    simp

theorem Op.apply_reltermfreq_find (s s' : Stats) (op : Op) (t : String) (v : doccount)
    (hv : s.reltermfreq.find t = some v) (h : op.apply s = some s') :
    s'.reltermfreq.find t = some (v + merged_reltermfreq t [op]) := by
  cases op with
  | set_termfreq tname tfreq =>
    simp only [Op.apply] at h
    cases hok : (s.set_termfreq tname tfreq).1 with
    | error e =>
      have : s.set_termfreq tname tfreq = (Except.error e, (s.set_termfreq tname tfreq).2) := by
        rw [← hok]
      rw [this] at h
      exact Option.noConfusion h
    | ok u =>
      have heq := Stats.set_termfreq_ok_eq s tname tfreq hok
      rw [heq] at h
      simp only [Option.some.injEq] at h
      subst h
      simp only [merged_reltermfreq, add_zero]
      exact hv
  | set_reltermfreq tname rtfreq =>
    simp only [Op.apply] at h
    cases hok : (s.set_reltermfreq tname rtfreq).1 with
    | error e =>
      have : s.set_reltermfreq tname rtfreq =
          (Except.error e, (s.set_reltermfreq tname rtfreq).2) := by
        rw [← hok]
      rw [this] at h
      exact Option.noConfusion h
    | ok u =>
      have heq := Stats.set_reltermfreq_ok_eq s tname rtfreq hok
      rw [heq] at h
      simp only [Option.some.injEq] at h
      subst h
      simp only [merged_reltermfreq, add_zero]
      by_cases hk : t = tname
      · subst hk
        rcases Stats.set_reltermfreq_ok_cases s t rtfreq hok with h1 | h1
        · rw [h1] at hv; exact Option.noConfusion hv
        · rw [h1] at hv
          rw [StdMap.find_subscript_self]
          exact hv
      · rw [StdMap.find_subscript_ne _ _ _ _ hk]
        exact hv
  | merge_from inc =>
    simp only [Op.apply, Option.some.injEq] at h
    subst h
    have := Stats.find_add_entries s.reltermfreq inc.reltermfreq t
    simp only [merged_reltermfreq, add_zero]
    show (Stats.add_entries s.reltermfreq inc.reltermfreq).find t = _
    rw [this, hv]
    simp

theorem merged_termfreq_cons (t : String) (op : Op) (ops : List Op) :
    merged_termfreq t (op :: ops) = merged_termfreq t [op] + merged_termfreq t ops := by
  cases op <;> simp [merged_termfreq]

theorem merged_reltermfreq_cons (t : String) (op : Op) (ops : List Op) :
    merged_reltermfreq t (op :: ops) =
      merged_reltermfreq t [op] + merged_reltermfreq t ops := by
  cases op <;> simp [merged_reltermfreq]

theorem run_termfreq_find (ops : List Op) (s s' : Stats) (t : String) (v : doccount)
    (hv : s.termfreq.find t = some v) (h : run s ops = some s') :
    s'.termfreq.find t = some (v + merged_termfreq t ops) := by
  induction ops generalizing s v with
  | nil =>
    simp only [run, Option.some.injEq] at h
    subst h
    simpa [merged_termfreq] using hv
  | cons op ops ih =>
    simp only [run] at h
    cases hop : op.apply s with
    | none => rw [hop] at h; exact Option.noConfusion h
    | some s₁ =>
      rw [hop] at h
      have h1 := Op.apply_termfreq_find s s₁ op t v hv hop
      rw [ih s₁ _ h1 h, merged_termfreq_cons t op ops, add_assoc]

theorem run_reltermfreq_find (ops : List Op) (s s' : Stats) (t : String) (v : doccount)
    (hv : s.reltermfreq.find t = some v) (h : run s ops = some s') :
    s'.reltermfreq.find t = some (v + merged_reltermfreq t ops) := by
  induction ops generalizing s v with
  | nil =>
    simp only [run, Option.some.injEq] at h
    subst h
    simpa [merged_reltermfreq] using hv
  | cons op ops ih =>
    simp only [run] at h
    cases hop : op.apply s with
    | none => rw [hop] at h; exact Option.noConfusion h
    | some s₁ =>
      rw [hop] at h
      have h1 := Op.apply_reltermfreq_find s s₁ op t v hv hop
      rw [ih s₁ _ h1 h, merged_reltermfreq_cons t op ops, add_assoc]

theorem merged_termfreq_eq_zero (t : String) (ops : List Op)
    (h : ∀ inc, Op.merge_from inc ∈ ops → (inc.termfreq.find t).getD 0 = 0) :
    merged_termfreq t ops = 0 := by
  induction ops with
  | nil => rfl
  | cons op ops ih =>
    have ih1 := ih (fun inc hinc => h inc (List.mem_cons_of_mem _ hinc))
    cases op with
    | set_termfreq tname tfreq => simpa [merged_termfreq] using ih1
    | set_reltermfreq tname rtfreq => simpa [merged_termfreq] using ih1
    | merge_from inc =>
      simp only [merged_termfreq, ih1, add_zero]
      exact h inc (List.mem_cons_self _ _)

theorem merged_reltermfreq_eq_zero (t : String) (ops : List Op)
    (h : ∀ inc, Op.merge_from inc ∈ ops → (inc.reltermfreq.find t).getD 0 = 0) :
    merged_reltermfreq t ops = 0 := by
  induction ops with
  | nil => rfl
  | cons op ops ih =>
    have ih1 := ih (fun inc hinc => h inc (List.mem_cons_of_mem _ hinc))
    cases op with
    | set_termfreq tname tfreq => simpa [merged_reltermfreq] using ih1
    | set_reltermfreq tname rtfreq => simpa [merged_reltermfreq] using ih1
    | merge_from inc =>
      simp only [merged_reltermfreq, ih1, add_zero]
      exact h inc (List.mem_cons_self _ _)

/-- C9, as stated, fails on the code: after the successful `set_termfreq "cat" 3` on a fresh
accumulator, the successful call `+= shardB` leaves `cat ↦ 10` in `termfreq`, not `cat ↦ 3`;
so a recorded frequency is not kept by every sequence of successful operations. -/
theorem recorded_freq_altered_by_merge :
    ((Stats.new.set_termfreq "cat" 3).1 = Except.ok () ∧
      (Stats.new.set_termfreq "cat" 3).2.termfreq.find "cat" = some 3 ∧
      run (Stats.new.set_termfreq "cat" 3).2 [Op.merge_from shardB] =
        some ((Stats.new.set_termfreq "cat" 3).2.operator_plus_assign shardB) ∧
      ((Stats.new.set_termfreq "cat" 3).2.operator_plus_assign shardB).termfreq.find "cat" =
        some 10) ∧
    ¬ (∀ (s : Stats) (t : String) (c : doccount) (ops : List Op) (s' : Stats),
        (s.set_termfreq t c).1 = Except.ok () → run (s.set_termfreq t c).2 ops = some s' →
        s'.termfreq.find t = some c) := by
  refine ⟨⟨rfl, by decide, rfl, by decide⟩, ?_⟩
  intro h
  have h1 := h Stats.new "cat" 3 [Op.merge_from shardB]
    ((Stats.new.set_termfreq "cat" 3).2.operator_plus_assign shardB) rfl rfl
  exact absurd h1 (by decide)

/-- C9, amended: once a successful setter call has written `t ↦ c`, after any sequence of
further successful calls (`set_termfreq`, `set_reltermfreq`, `operator+=`) the map holds under
`t` the value `c` plus the sum of the entries under `t` (0 when absent) of the accumulators
merged in; so it still maps `t` to `c` when every merged accumulator has no entry, or the
entry 0, under `t`, in particular after setter calls only. -/
theorem recorded_freq_after_calls (s : Stats) (t : String) (c : doccount) (ops : List Op)
    (s' : Stats) :
    ((s.set_termfreq t c).1 = Except.ok () → run (s.set_termfreq t c).2 ops = some s' →
      s'.termfreq.find t = some (c + merged_termfreq t ops) ∧
      ((∀ inc, Op.merge_from inc ∈ ops → (inc.termfreq.find t).getD 0 = 0) →
        s'.termfreq.find t = some c)) ∧
    ((s.set_reltermfreq t c).1 = Except.ok () → run (s.set_reltermfreq t c).2 ops = some s' →
      s'.reltermfreq.find t = some (c + merged_reltermfreq t ops) ∧
      ((∀ inc, Op.merge_from inc ∈ ops → (inc.reltermfreq.find t).getD 0 = 0) →
        s'.reltermfreq.find t = some c)) := by
  constructor
  · intro hok hrun
    have hv : (s.set_termfreq t c).2.termfreq.find t = some c := by
      rw [Stats.set_termfreq_ok_eq s t c hok]
      exact StdMap.find_subscript_self _ _ _
    have key := run_termfreq_find ops _ s' t c hv hrun
    refine ⟨key, fun hz => ?_⟩
    rw [key, merged_termfreq_eq_zero t ops hz, add_zero]
  · intro hok hrun
    have hv : (s.set_reltermfreq t c).2.reltermfreq.find t = some c := by
      rw [Stats.set_reltermfreq_ok_eq s t c hok]
      exact StdMap.find_subscript_self _ _ _
    have key := run_reltermfreq_find ops _ s' t c hv hrun
    refine ⟨key, fun hz => ?_⟩
    rw [key, merged_reltermfreq_eq_zero t ops hz, add_zero]

/-- C9 amended, on a fresh accumulator: after `set_termfreq "cat" 3`, the calls of
`sampleCalls` (which merge shard B, holding `cat ↦ 7`) leave `cat ↦ 3 + 7`. -/
theorem recorded_freq_after_calls_witness :
    (Stats.new.set_termfreq "cat" 3).1 = Except.ok () ∧
    run (Stats.new.set_termfreq "cat" 3).2 sampleCalls = some sampleAfter ∧
    sampleAfter.termfreq.find "cat" = some (3 + merged_termfreq "cat" sampleCalls) ∧
    merged_termfreq "cat" sampleCalls = 7 ∧
    run (Stats.new.set_termfreq "cat" 3).2 [Op.set_termfreq "cat" 3, Op.set_reltermfreq "dog" 1] =
      some (((Stats.new.set_termfreq "cat" 3).2.set_termfreq "cat" 3).2.set_reltermfreq
        "dog" 1).2 ∧
    (((Stats.new.set_termfreq "cat" 3).2.set_termfreq "cat" 3).2.set_reltermfreq
      "dog" 1).2.termfreq.find "cat" = some 3 :=
  ⟨rfl, rfl,
    ((recorded_freq_after_calls Stats.new "cat" 3 sampleCalls sampleAfter).1 rfl rfl).1,
    by decide, rfl,
    ((recorded_freq_after_calls Stats.new "cat" 3
      [Op.set_termfreq "cat" 3, Op.set_reltermfreq "dog" 1] _).1 rfl rfl).2
      (fun inc hinc => by simp at hinc)⟩

/-! ## Merging in any order -/

namespace Stats

theorem eq_of_fields {s₁ s₂ : Stats} (h₁ : s₁.collection_size = s₂.collection_size)
    (h₂ : s₁.rset_size = s₂.rset_size) (h₃ : s₁.average_length = s₂.average_length)
    (h₄ : s₁.termfreq = s₂.termfreq) (h₅ : s₁.reltermfreq = s₂.reltermfreq) : s₁ = s₂ := by
  cases s₁; cases s₂
  simp only [Stats.mk.injEq]
  exact ⟨h₁, h₂, h₃, h₄, h₅⟩

theorem average_length_mul_size (A B : Stats) :
    (A.operator_plus_assign B).average_length *
        ((A.collection_size : ℚ) + (B.collection_size : ℚ)) =
      A.average_length * (A.collection_size : ℚ) +
        B.average_length * (B.collection_size : ℚ) := by
  rw [average_length_eq]
  by_cases h : A.collection_size + B.collection_size = 0
  · have hA : A.collection_size = 0 := Nat.eq_zero_of_add_eq_zero_right h
    have hB : B.collection_size = 0 := Nat.eq_zero_of_add_eq_zero_left h
    simp [hA, hB]
  · rw [if_neg h]
    have hne : (A.collection_size : ℚ) + (B.collection_size : ℚ) ≠ 0 := by
      have : ((A.collection_size + B.collection_size : ℕ) : ℚ) ≠ 0 := Nat.cast_ne_zero.mpr h
      rwa [Nat.cast_add] at this
    exact div_mul_cancel₀ _ hne

theorem average_length_merge_twice (X a b : Stats) :
    ((X.operator_plus_assign a).operator_plus_assign b).average_length =
      if X.collection_size + a.collection_size + b.collection_size = 0 then X.average_length
      else (X.average_length * (X.collection_size : ℚ) +
          a.average_length * (a.collection_size : ℚ) +
          b.average_length * (b.collection_size : ℚ)) /
        ((X.collection_size : ℚ) + (a.collection_size : ℚ) + (b.collection_size : ℚ)) := by
  rw [average_length_eq (X.operator_plus_assign a) b]
  have hs : (X.operator_plus_assign a).collection_size =
      X.collection_size + a.collection_size := rfl
  rw [hs]
  by_cases h : X.collection_size + a.collection_size + b.collection_size = 0
  · rw [if_pos h, if_pos h, average_length_eq X a,
      if_pos (Nat.eq_zero_of_add_eq_zero_right h)]
  · rw [if_neg h, if_neg h, Nat.cast_add, average_length_mul_size X a]

theorem add_entries_right_comm (m a b : StdMap) :
    add_entries (add_entries m a) b = add_entries (add_entries m b) a := by
  apply StdMap.ext_find
  intro k
  rw [find_add_entries, find_add_entries, find_add_entries, find_add_entries]
  cases m.find k <;> cases a.find k <;> cases b.find k <;>
    simp [add_comm, add_assoc, add_left_comm]

theorem operator_plus_assign_right_comm (X a b : Stats) :
    (X.operator_plus_assign a).operator_plus_assign b =
      (X.operator_plus_assign b).operator_plus_assign a := by
  apply eq_of_fields
  · show X.collection_size + a.collection_size + b.collection_size =
      X.collection_size + b.collection_size + a.collection_size
    exact Nat.add_right_comm _ _ _
  · show X.rset_size + a.rset_size + b.rset_size = X.rset_size + b.rset_size + a.rset_size
    exact Nat.add_right_comm _ _ _
  · rw [average_length_merge_twice, average_length_merge_twice]
    by_cases h : X.collection_size + a.collection_size + b.collection_size = 0
    · rw [if_pos h, if_pos (by rw [Nat.add_right_comm]; exact h)]
    · rw [if_neg h, if_neg (by rw [Nat.add_right_comm]; exact h)]
      congr 1 <;> ring
  · exact add_entries_right_comm X.termfreq a.termfreq b.termfreq
  · exact add_entries_right_comm X.reltermfreq a.reltermfreq b.reltermfreq

end Stats

/-- C10: order independence of a merge sequence. For two lists of accumulators that are
permutations of each other, merging their elements into `X` one after another gives the same
collection size, relevant-set size, `termfreq` and `reltermfreq` maps and, in exact
arithmetic, the same average length. -/
theorem merge_all_perm (X : Stats) (l₁ l₂ : List Stats) (h : l₁.Perm l₂) :
    (merge_all X l₁).collection_size = (merge_all X l₂).collection_size ∧
    (merge_all X l₁).rset_size = (merge_all X l₂).rset_size ∧
    (merge_all X l₁).termfreq = (merge_all X l₂).termfreq ∧
    (merge_all X l₁).reltermfreq = (merge_all X l₂).reltermfreq ∧
    (merge_all X l₁).average_length = (merge_all X l₂).average_length := by
  have key : merge_all X l₁ = merge_all X l₂ :=
    List.Perm.foldl_eq' h
      (fun x _ y _ z => Stats.operator_plus_assign_right_comm z x y) X
  rw [key]
  exact ⟨rfl, rfl, rfl, rfl, rfl⟩

/-- C10, on the scenario: merging shard A then shard B into a fresh accumulator, or shard B
then shard A, gives the same five fields. -/
theorem merge_all_perm_witness :
    [shardA, shardB].Perm [shardB, shardA] ∧
    (merge_all Stats.new [shardA, shardB]).collection_size =
      (merge_all Stats.new [shardB, shardA]).collection_size ∧
    (merge_all Stats.new [shardA, shardB]).rset_size =
      (merge_all Stats.new [shardB, shardA]).rset_size ∧
    (merge_all Stats.new [shardA, shardB]).termfreq =
      (merge_all Stats.new [shardB, shardA]).termfreq ∧
    (merge_all Stats.new [shardA, shardB]).reltermfreq =
      (merge_all Stats.new [shardB, shardA]).reltermfreq ∧
    (merge_all Stats.new [shardA, shardB]).average_length =
      (merge_all Stats.new [shardB, shardA]).average_length :=
  ⟨List.Perm.swap shardB shardA [],
    merge_all_perm Stats.new [shardA, shardB] [shardB, shardA] (List.Perm.swap shardB shardA [])⟩

/-! ## Algebra of `operator+=` -/

namespace Stats

theorem add_entries_comm (a b : StdMap) : add_entries a b = add_entries b a := by
  apply StdMap.ext_find
  intro k
  rw [find_add_entries, find_add_entries]
  cases a.find k <;> cases b.find k <;> simp [add_comm]

theorem add_entries_assoc (a b c : StdMap) :
    add_entries (add_entries a b) c = add_entries a (add_entries b c) := by
  apply StdMap.ext_find
  intro k
  rw [find_add_entries, find_add_entries, find_add_entries, find_add_entries]
  cases a.find k <;> cases b.find k <;> cases c.find k <;> simp [add_assoc]

theorem add_entries_empty (m inc : StdMap) (h : inc.entries = []) : add_entries m inc = m := by
  simp [add_entries, h]

/-- C11, as stated, fails on the code: a fresh accumulator (average length 1) and an empty
sub-database reporting the average length 0 both have collection size 0, so each merge keeps
the average length of its own left operand: 1 one way round, 0 the other. -/
theorem merge_average_not_commutative :
    (Stats.new.operator_plus_assign emptyShard).average_length = 1 ∧
    (emptyShard.operator_plus_assign Stats.new).average_length = 0 ∧
    ¬ (∀ A B : Stats,
        (A.operator_plus_assign B).collection_size = (B.operator_plus_assign A).collection_size ∧
        (A.operator_plus_assign B).rset_size = (B.operator_plus_assign A).rset_size ∧
        (A.operator_plus_assign B).average_length = (B.operator_plus_assign A).average_length ∧
        (A.operator_plus_assign B).termfreq = (B.operator_plus_assign A).termfreq ∧
        (A.operator_plus_assign B).reltermfreq = (B.operator_plus_assign A).reltermfreq) := by
  have h1 : (Stats.new.operator_plus_assign emptyShard).average_length = 1 := by
    simp [operator_plus_assign, Stats.new, emptyShard]
  have h0 : (emptyShard.operator_plus_assign Stats.new).average_length = 0 := by
    simp [operator_plus_assign, Stats.new, emptyShard]
  refine ⟨h1, h0, fun h => ?_⟩
  have h2 := (h Stats.new emptyShard).2.2.1
  rw [h1, h0] at h2
  exact one_ne_zero h2

/-- C11, amended: merging `B` into `A` and `A` into `B` give the same collection size,
relevant-set size, `termfreq` and `reltermfreq` maps, and, in exact arithmetic, the same
average length whenever the merged collection size is not 0; when both collection sizes are 0
each merge keeps the average length of its own left operand. -/
theorem merge_comm (A B : Stats) :
    (A.operator_plus_assign B).collection_size = (B.operator_plus_assign A).collection_size ∧
    (A.operator_plus_assign B).rset_size = (B.operator_plus_assign A).rset_size ∧
    (A.operator_plus_assign B).termfreq = (B.operator_plus_assign A).termfreq ∧
    (A.operator_plus_assign B).reltermfreq = (B.operator_plus_assign A).reltermfreq ∧
    (A.collection_size + B.collection_size ≠ 0 →
      (A.operator_plus_assign B).average_length = (B.operator_plus_assign A).average_length) ∧
    (A.collection_size + B.collection_size = 0 →
      (A.operator_plus_assign B).average_length = A.average_length ∧
      (B.operator_plus_assign A).average_length = B.average_length) := by
  refine ⟨Nat.add_comm _ _, Nat.add_comm _ _, add_entries_comm _ _, add_entries_comm _ _, ?_, ?_⟩
  · intro h
    have h' : B.collection_size + A.collection_size ≠ 0 := by rwa [Nat.add_comm]
    rw [average_length_eq, average_length_eq, if_neg h, if_neg h']
    congr 1 <;> ring
  · intro h
    have h' : B.collection_size + A.collection_size = 0 := by rwa [Nat.add_comm]
    rw [average_length_eq, average_length_eq, if_pos h, if_pos h']
    exact ⟨rfl, rfl⟩

/-- C11 amended, on the scenario: shards A and B hold 30 documents together, and merging either
into the other gives the average length 140. -/
theorem merge_comm_witness :
    shardA.collection_size + shardB.collection_size ≠ 0 ∧
    (shardA.operator_plus_assign shardB).average_length =
      (shardB.operator_plus_assign shardA).average_length ∧
    (shardA.operator_plus_assign shardB).termfreq =
      (shardB.operator_plus_assign shardA).termfreq :=
  ⟨by decide, (merge_comm shardA shardB).2.2.2.2.1 (by decide), (merge_comm shardA shardB).2.2.1⟩

theorem operator_plus_assign_assoc (A B C : Stats) :
    (A.operator_plus_assign B).operator_plus_assign C =
      A.operator_plus_assign (B.operator_plus_assign C) := by
  apply eq_of_fields
  · exact Nat.add_assoc _ _ _
  · exact Nat.add_assoc _ _ _
  · rw [average_length_merge_twice, average_length_eq A (B.operator_plus_assign C)]
    have hs : (B.operator_plus_assign C).collection_size =
        B.collection_size + C.collection_size := rfl
    rw [hs]
    by_cases h : A.collection_size + B.collection_size + C.collection_size = 0
    · rw [if_pos h, if_pos (by rw [← Nat.add_assoc]; exact h)]
    · rw [if_neg h, if_neg (by rw [← Nat.add_assoc]; exact h), Nat.cast_add,
        average_length_mul_size B C]
      congr 1 <;> ring
  · exact add_entries_assoc _ _ _
  · exact add_entries_assoc _ _ _

/-- C12: associativity of the merge. `(A += B) += C` and `A += (B += C)` have the same
collection size, relevant-set size, `termfreq` and `reltermfreq` maps and, in exact arithmetic,
the same average length. -/
theorem merge_assoc (A B C : Stats) :
    ((A.operator_plus_assign B).operator_plus_assign C).collection_size =
      (A.operator_plus_assign (B.operator_plus_assign C)).collection_size ∧
    ((A.operator_plus_assign B).operator_plus_assign C).rset_size =
      (A.operator_plus_assign (B.operator_plus_assign C)).rset_size ∧
    ((A.operator_plus_assign B).operator_plus_assign C).termfreq =
      (A.operator_plus_assign (B.operator_plus_assign C)).termfreq ∧
    ((A.operator_plus_assign B).operator_plus_assign C).reltermfreq =
      (A.operator_plus_assign (B.operator_plus_assign C)).reltermfreq ∧
    ((A.operator_plus_assign B).operator_plus_assign C).average_length =
      (A.operator_plus_assign (B.operator_plus_assign C)).average_length := by
  rw [operator_plus_assign_assoc A B C]
  exact ⟨rfl, rfl, rfl, rfl, rfl⟩

/-- C12, on shards A, B and C: either bracketing gives 35 documents, the map
`{cat:10, dog:3, emu:4}` and the average length 880 / 7. -/
theorem merge_assoc_witness :
    ((shardA.operator_plus_assign shardB).operator_plus_assign shardC).collection_size = 35 ∧
    (shardA.operator_plus_assign (shardB.operator_plus_assign shardC)).collection_size = 35 ∧
    ((shardA.operator_plus_assign shardB).operator_plus_assign shardC).termfreq.entries =
      [("cat", 10), ("dog", 3), ("emu", 4)] ∧
    (shardA.operator_plus_assign (shardB.operator_plus_assign shardC)).termfreq.entries =
      [("cat", 10), ("dog", 3), ("emu", 4)] ∧
    ((shardA.operator_plus_assign shardB).operator_plus_assign shardC).average_length = 880 / 7 ∧
    (shardA.operator_plus_assign (shardB.operator_plus_assign shardC)).average_length =
      880 / 7 := by
  have h := (merge_assoc shardA shardB shardC).2.2.2.2
  have hl : ((shardA.operator_plus_assign shardB).operator_plus_assign shardC).average_length =
      880 / 7 := by
    rw [average_length_merge_twice]
    norm_num [shardA, shardB, shardC]
  exact ⟨by decide, by decide, by decide, by decide, hl, h ▸ hl⟩

/-- C13: right identity. Merging in an accumulator `E` with collection size 0, relevant-set
size 0 and two empty maps, whatever its average length, leaves all five fields of `X` as they
were. -/
theorem merge_empty_right (X E : Stats) (hc : E.collection_size = 0) (hr : E.rset_size = 0)
    (ht : E.termfreq.entries = []) (hrt : E.reltermfreq.entries = []) :
    (X.operator_plus_assign E).collection_size = X.collection_size ∧
    (X.operator_plus_assign E).rset_size = X.rset_size ∧
    (X.operator_plus_assign E).average_length = X.average_length ∧
    (X.operator_plus_assign E).termfreq = X.termfreq ∧
    (X.operator_plus_assign E).reltermfreq = X.reltermfreq := by
  refine ⟨?_, ?_, ?_, add_entries_empty _ _ ht, add_entries_empty _ _ hrt⟩
  · show X.collection_size + E.collection_size = X.collection_size
    rw [hc, Nat.add_zero]
  · show X.rset_size + E.rset_size = X.rset_size
    rw [hr, Nat.add_zero]
  · rw [average_length_eq, hc]
    by_cases h : X.collection_size = 0
    · rw [if_pos (by rw [Nat.add_zero]; exact h)]
    · rw [if_neg (by rw [Nat.add_zero]; exact h)]
      have hne : (X.collection_size : ℚ) ≠ 0 := Nat.cast_ne_zero.mpr h
      simp only [Nat.cast_zero, mul_zero, add_zero]
      exact mul_div_cancel_right₀ _ hne

/-- C13, on shard A and a freshly constructed `Stats`, and on shard A and an empty
sub-database reporting the average length 0: shard A is left as it was. -/
theorem merge_empty_right_witness :
    (Stats.new.collection_size = 0 ∧ Stats.new.rset_size = 0 ∧
      Stats.new.termfreq.entries = [] ∧ Stats.new.reltermfreq.entries = []) ∧
    shardA.operator_plus_assign Stats.new = shardA ∧
    shardA.operator_plus_assign emptyShard = shardA :=
  ⟨⟨rfl, rfl, rfl, rfl⟩,
    eq_of_fields (merge_empty_right shardA Stats.new rfl rfl rfl rfl).1
      (merge_empty_right shardA Stats.new rfl rfl rfl rfl).2.1
      (merge_empty_right shardA Stats.new rfl rfl rfl rfl).2.2.1
      (merge_empty_right shardA Stats.new rfl rfl rfl rfl).2.2.2.1
      (merge_empty_right shardA Stats.new rfl rfl rfl rfl).2.2.2.2,
    eq_of_fields (merge_empty_right shardA emptyShard rfl rfl rfl rfl).1
      (merge_empty_right shardA emptyShard rfl rfl rfl rfl).2.1
      (merge_empty_right shardA emptyShard rfl rfl rfl rfl).2.2.1
      (merge_empty_right shardA emptyShard rfl rfl rfl rfl).2.2.2.1
      (merge_empty_right shardA emptyShard rfl rfl rfl rfl).2.2.2.2⟩

/-- C14: invariant I2. When `A` has collection size 0 and `B` a positive one, after `A += B`
the average length is exactly that of `B`, whatever average length `A` held. -/
theorem merge_into_empty_average (A B : Stats) (hA : A.collection_size = 0)
    (hB : 0 < B.collection_size) :
    (A.operator_plus_assign B).average_length = B.average_length := by
  have hB0 : B.collection_size ≠ 0 := Nat.pos_iff_ne_zero.mp hB
  have hne : (B.collection_size : ℚ) ≠ 0 := Nat.cast_ne_zero.mpr hB0
  rw [average_length_eq, hA, if_neg (by rw [Nat.zero_add]; exact hB0)]
  simp only [Nat.cast_zero, mul_zero, zero_add]
  exact mul_div_cancel_right₀ _ hne

/-- C14, on a fresh accumulator (placeholder average length 1) and shard B: the merged average
length is the 160 of shard B. -/
theorem merge_into_empty_average_witness :
    Stats.new.collection_size = 0 ∧ 0 < shardB.collection_size ∧
    (Stats.new.operator_plus_assign shardB).average_length = 160 :=
  ⟨rfl, by decide, merge_into_empty_average Stats.new shardB rfl (by decide)⟩

/-- C15: exactness on disjoint document sets. If `A.average_length` is `LA / A.collection_size`
when `A` is not empty and `LA = 0` when it is, and likewise for `B` and `LB`, and the two
collection sizes are not both 0, then after `A += B` the average length is
`(LA + LB) / (A.collection_size + B.collection_size)`; and whenever the merged size is not 0 the
merged average times the merged size is
`A.average_length * A.collection_size + B.average_length * B.collection_size`. -/
theorem merge_average_exact (A B : Stats) (LA LB : ℚ) :
    ((0 < A.collection_size → A.average_length = LA / (A.collection_size : ℚ)) →
      (A.collection_size = 0 → LA = 0) →
      (0 < B.collection_size → B.average_length = LB / (B.collection_size : ℚ)) →
      (B.collection_size = 0 → LB = 0) →
      A.collection_size + B.collection_size ≠ 0 →
      (A.operator_plus_assign B).average_length =
        (LA + LB) / ((A.collection_size : ℚ) + (B.collection_size : ℚ))) ∧
    ((A.operator_plus_assign B).collection_size ≠ 0 →
      (A.operator_plus_assign B).average_length *
          ((A.operator_plus_assign B).collection_size : ℚ) =
        A.average_length * (A.collection_size : ℚ) +
          B.average_length * (B.collection_size : ℚ)) := by
  constructor
  · intro hA hA0 hB hB0 hne
    have ha : A.average_length * (A.collection_size : ℚ) = LA := by
      by_cases h : A.collection_size = 0
      · rw [h, hA0 h]; simp
      · have hq : (A.collection_size : ℚ) ≠ 0 := Nat.cast_ne_zero.mpr h
        rw [hA (Nat.pos_of_ne_zero h)]
        exact div_mul_cancel₀ _ hq
    have hb : B.average_length * (B.collection_size : ℚ) = LB := by
      by_cases h : B.collection_size = 0
      · rw [h, hB0 h]; simp
      · have hq : (B.collection_size : ℚ) ≠ 0 := Nat.cast_ne_zero.mpr h
        rw [hB (Nat.pos_of_ne_zero h)]
        exact div_mul_cancel₀ _ hq
    rw [average_length_eq, if_neg hne, ha, hb]
  · intro _
    have h := average_length_mul_size A B
    have hs : (A.operator_plus_assign B).collection_size =
        A.collection_size + B.collection_size := rfl
    rw [hs, Nat.cast_add]
    exact h

/-- C15, on the scenario: shard A holds 10 documents of total length 1000, shard B 20 documents
of total length 3200, and the merged average length is `(1000 + 3200) / (10 + 20)`. -/
theorem merge_average_exact_witness :
    (shardA.operator_plus_assign shardB).average_length =
      (1000 + 3200) / (((10 : ℕ) : ℚ) + ((20 : ℕ) : ℚ)) :=
  (merge_average_exact shardA shardB 1000 3200).1
    (fun _ => by norm_num [shardA]) (fun h => absurd h (by decide))
    (fun _ => by norm_num [shardB]) (fun h => absurd h (by decide)) (by decide)

/-- C16: frame of the setters. `set_termfreq t c` changes nothing except the `termfreq` entry
under `t`: the collection size, the relevant-set size, the average length, the whole
`reltermfreq` map and every `termfreq` entry under another key are as before, and so is every
result of `get_reltermfreq`. Symmetrically, `set_reltermfreq t c` changes only the
`reltermfreq` entry under `t` and no result of `get_termfreq`. -/
theorem set_frame (s : Stats) (t : String) (c : doccount) :
    ((s.set_termfreq t c).1 = Except.ok () →
      (s.set_termfreq t c).2.collection_size = s.collection_size ∧
      (s.set_termfreq t c).2.rset_size = s.rset_size ∧
      (s.set_termfreq t c).2.average_length = s.average_length ∧
      (s.set_termfreq t c).2.reltermfreq = s.reltermfreq ∧
      (∀ k, k ≠ t → (s.set_termfreq t c).2.termfreq.find k = s.termfreq.find k) ∧
      (∀ k, (s.set_termfreq t c).2.get_reltermfreq k = s.get_reltermfreq k)) ∧
    ((s.set_reltermfreq t c).1 = Except.ok () →
      (s.set_reltermfreq t c).2.collection_size = s.collection_size ∧
      (s.set_reltermfreq t c).2.rset_size = s.rset_size ∧
      (s.set_reltermfreq t c).2.average_length = s.average_length ∧
      (s.set_reltermfreq t c).2.termfreq = s.termfreq ∧
      (∀ k, k ≠ t → (s.set_reltermfreq t c).2.reltermfreq.find k = s.reltermfreq.find k) ∧
      (∀ k, (s.set_reltermfreq t c).2.get_termfreq k = s.get_termfreq k)) := by
  constructor
  · intro h
    rw [set_termfreq_ok_eq s t c h]
    exact ⟨rfl, rfl, rfl, rfl, fun k hk => StdMap.find_subscript_ne _ _ _ _ hk, fun _ => rfl⟩
  · intro h
    rw [set_reltermfreq_ok_eq s t c h]
    exact ⟨rfl, rfl, rfl, rfl, fun k hk => StdMap.find_subscript_ne _ _ _ _ hk, fun _ => rfl⟩

/-- C16, on shard A: setting the unset `foo` to 5 in `termfreq` keeps the three scalars, the
`reltermfreq` map and the entry of `cat`; setting it in `reltermfreq` keeps `termfreq`. -/
theorem set_frame_witness :
    (shardA.set_termfreq "foo" 5).1 = Except.ok () ∧
    (shardA.set_termfreq "foo" 5).2.collection_size = 10 ∧
    (shardA.set_termfreq "foo" 5).2.reltermfreq = shardA.reltermfreq ∧
    ("cat" ≠ "foo" ∧ (shardA.set_termfreq "foo" 5).2.termfreq.find "cat" = some 3) ∧
    (shardA.set_termfreq "foo" 5).2.get_reltermfreq "cat" = Except.ok 1 ∧
    (shardA.set_reltermfreq "foo" 5).1 = Except.ok () ∧
    (shardA.set_reltermfreq "foo" 5).2.termfreq = shardA.termfreq ∧
    (shardA.set_reltermfreq "foo" 5).2.get_termfreq "cat" = Except.ok 3 :=
  ⟨rfl, ((set_frame shardA "foo" 5).1 rfl).1, ((set_frame shardA "foo" 5).1 rfl).2.2.2.1,
    ⟨by decide, ((set_frame shardA "foo" 5).1 rfl).2.2.2.2.1 "cat" (by decide)⟩,
    ((set_frame shardA "foo" 5).1 rfl).2.2.2.2.2 "cat",
    rfl, ((set_frame shardA "foo" 5).2 rfl).2.2.2.1,
    ((set_frame shardA "foo" 5).2 rfl).2.2.2.2.2 "cat"⟩

/-- C17: the merged average is a convex combination. When the two collection sizes are not both
0, after `A += B` the average length lies between the smaller and the larger of the two input
averages; in particular it is non-negative when both inputs are. -/
theorem merge_average_between (A B : Stats)
    (h : A.collection_size + B.collection_size ≠ 0) :
    min A.average_length B.average_length ≤ (A.operator_plus_assign B).average_length ∧
    (A.operator_plus_assign B).average_length ≤ max A.average_length B.average_length ∧
    (0 ≤ A.average_length → 0 ≤ B.average_length →
      0 ≤ (A.operator_plus_assign B).average_length) := by
  have hx : (0 : ℚ) ≤ (A.collection_size : ℚ) := Nat.cast_nonneg _
  have hy : (0 : ℚ) ≤ (B.collection_size : ℚ) := Nat.cast_nonneg _
  have hne : ((A.collection_size + B.collection_size : ℕ) : ℚ) ≠ 0 := Nat.cast_ne_zero.mpr h
  rw [Nat.cast_add] at hne
  have hpos : (0 : ℚ) < (A.collection_size : ℚ) + (B.collection_size : ℚ) :=
    lt_of_le_of_ne (add_nonneg hx hy) (Ne.symm hne)
  rw [average_length_eq, if_neg h]
  have hlow : min A.average_length B.average_length ≤
      (A.average_length * (A.collection_size : ℚ) + B.average_length * (B.collection_size : ℚ)) /
        ((A.collection_size : ℚ) + (B.collection_size : ℚ)) := by
    rw [le_div_iff₀ hpos, mul_add]
    exact add_le_add (mul_le_mul_of_nonneg_right (min_le_left _ _) hx)
      (mul_le_mul_of_nonneg_right (min_le_right _ _) hy)
  have hhigh : (A.average_length * (A.collection_size : ℚ) +
        B.average_length * (B.collection_size : ℚ)) /
        ((A.collection_size : ℚ) + (B.collection_size : ℚ)) ≤
      max A.average_length B.average_length := by
    rw [div_le_iff₀ hpos, mul_add]
    exact add_le_add (mul_le_mul_of_nonneg_right (le_max_left _ _) hx)
      (mul_le_mul_of_nonneg_right (le_max_right _ _) hy)
  exact ⟨hlow, hhigh, fun ha hb => le_trans (le_min ha hb) hlow⟩

/-- C17, on the scenario: the merged average length of shards A and B lies between 100 and
160. -/
theorem merge_average_between_witness :
    shardA.collection_size + shardB.collection_size ≠ 0 ∧
    min shardA.average_length shardB.average_length ≤
      (shardA.operator_plus_assign shardB).average_length ∧
    (shardA.operator_plus_assign shardB).average_length ≤
      max shardA.average_length shardB.average_length :=
  ⟨by decide, (merge_average_between shardA shardB (by decide)).1,
    (merge_average_between shardA shardB (by decide)).2.1⟩

theorem getD_find_le (m : StdMap) (n : doccount) (h : ∀ e ∈ m.entries, e.2 ≤ n)
    (k : String) : (m.find k).getD 0 ≤ n := by
  cases hf : m.find k with
  | none => exact Nat.zero_le _
  | some v =>
    have hmem : (k, v) ∈ m.entries := (findEntries_eq_some_iff_mem k v m.entries m.ordered).mp hf
    exact h (k, v) hmem

theorem add_entries_le (a b : StdMap) (n₁ n₂ : doccount) (ha : ∀ e ∈ a.entries, e.2 ≤ n₁)
    (hb : ∀ e ∈ b.entries, e.2 ≤ n₂) : ∀ e ∈ (add_entries a b).entries, e.2 ≤ n₁ + n₂ := by
  rintro ⟨k, v⟩ he
  have hf : (add_entries a b).find k = some v :=
    (findEntries_eq_some_iff_mem k v _ (add_entries a b).ordered).mpr he
  rw [find_add_entries] at hf
  split at hf
  · exact Option.noConfusion hf
  · simp only [Option.some.injEq] at hf
    show v ≤ n₁ + n₂
    rw [← hf]
    exact Nat.add_le_add (getD_find_le a n₁ ha k) (getD_find_le b n₂ hb k)

/-- C18: the merge preserves the consistency of the statistics. If in `A` and in `B` the
relevant-set size is at most the collection size, every `termfreq` value at most the collection
size and every `reltermfreq` value at most the relevant-set size, the same three bounds hold
after `A += B`. -/
theorem merge_consistent (A B : Stats) (hA : Consistent A) (hB : Consistent B) :
    Consistent (A.operator_plus_assign B) :=
  ⟨Nat.add_le_add hA.1 hB.1,
    add_entries_le A.termfreq B.termfreq _ _ hA.2.1 hB.2.1,
    add_entries_le A.reltermfreq B.reltermfreq _ _ hA.2.2 hB.2.2⟩

/-- C18, on the scenario: shards A and B are consistent, and so is their merge. -/
theorem merge_consistent_witness :
    Consistent shardA ∧ Consistent shardB ∧ Consistent (shardA.operator_plus_assign shardB) :=
  ⟨by decide, by decide, merge_consistent shardA shardB (by decide) (by decide)⟩

/-- C19: the setter accepts the empty term and the getter never reads it. On an accumulator
with no entry under the empty string, `set_termfreq "" c` succeeds and stores `"" ↦ c`, a
following `get_termfreq ""` returns 0, which is not `c` when `c ≠ 0`, and a later merge still
adds the stored entry key-wise, whichever side holds it. The same holds for the
`reltermfreq` pair. -/
theorem set_empty_term_not_read (s : Stats) (c : doccount) :
    (s.termfreq.find "" = none →
      (s.set_termfreq "" c).1 = Except.ok () ∧
      (s.set_termfreq "" c).2.termfreq.find "" = some c ∧
      (s.set_termfreq "" c).2.get_termfreq "" = Except.ok 0 ∧
      (c ≠ 0 → (s.set_termfreq "" c).2.get_termfreq "" ≠ Except.ok c) ∧
      (∀ X : Stats, (X.operator_plus_assign (s.set_termfreq "" c).2).termfreq.find "" =
        some ((X.termfreq.find "").getD 0 + c)) ∧
      (∀ B : Stats, ((s.set_termfreq "" c).2.operator_plus_assign B).termfreq.find "" =
        some (c + (B.termfreq.find "").getD 0))) ∧
    (s.reltermfreq.find "" = none →
      (s.set_reltermfreq "" c).1 = Except.ok () ∧
      (s.set_reltermfreq "" c).2.reltermfreq.find "" = some c ∧
      (s.set_reltermfreq "" c).2.get_reltermfreq "" = Except.ok 0 ∧
      (c ≠ 0 → (s.set_reltermfreq "" c).2.get_reltermfreq "" ≠ Except.ok c) ∧
      (∀ X : Stats, (X.operator_plus_assign (s.set_reltermfreq "" c).2).reltermfreq.find "" =
        some ((X.reltermfreq.find "").getD 0 + c)) ∧
      (∀ B : Stats, ((s.set_reltermfreq "" c).2.operator_plus_assign B).reltermfreq.find "" =
        some (c + (B.reltermfreq.find "").getD 0))) := by
  constructor
  · intro h
    have hset := set_termfreq_of_none s "" c h
    have hfind : (s.set_termfreq "" c).2.termfreq.find "" = some c := by
      rw [hset]; exact StdMap.find_subscript_self _ _ _
    refine ⟨by rw [hset], hfind, rfl, ?_, ?_, ?_⟩
    · intro hc hget
      rw [get_termfreq_empty] at hget
      exact hc (Except.ok.inj hget).symm
    · intro X
      show (add_entries X.termfreq (s.set_termfreq "" c).2.termfreq).find "" = _
      rw [find_add_entries, hfind]
      simp
    · intro B
      show (add_entries (s.set_termfreq "" c).2.termfreq B.termfreq).find "" = _
      rw [find_add_entries, hfind]
      simp
  · intro h
    have hset := set_reltermfreq_of_none s "" c h
    have hfind : (s.set_reltermfreq "" c).2.reltermfreq.find "" = some c := by
      rw [hset]; exact StdMap.find_subscript_self _ _ _
    refine ⟨by rw [hset], hfind, rfl, ?_, ?_, ?_⟩
    · intro hc hget
      rw [get_reltermfreq_empty] at hget
      exact hc (Except.ok.inj hget).symm
    · intro X
      show (add_entries X.reltermfreq (s.set_reltermfreq "" c).2.reltermfreq).find "" = _
      rw [find_add_entries, hfind]
      simp
    · intro B
      show (add_entries (s.set_reltermfreq "" c).2.reltermfreq B.reltermfreq).find "" = _
      rw [find_add_entries, hfind]
      simp

/-- C19, on shard A: `set_termfreq "" 4` succeeds and stores `"" ↦ 4`, `get_termfreq ""` still
returns 0 and not 4, and merging the result into itself leaves `"" ↦ 8`. -/
theorem set_empty_term_not_read_witness :
    shardA.termfreq.find "" = none ∧
    (shardA.set_termfreq "" 4).1 = Except.ok () ∧
    (shardA.set_termfreq "" 4).2.termfreq.entries = [("", 4), ("cat", 3)] ∧
    (shardA.set_termfreq "" 4).2.get_termfreq "" = Except.ok 0 ∧
    (shardA.set_termfreq "" 4).2.get_termfreq "" ≠ Except.ok 4 ∧
    ((shardA.set_termfreq "" 4).2.operator_plus_assign
      (shardA.set_termfreq "" 4).2).termfreq.find "" = some 8 :=
  ⟨by decide, ((set_empty_term_not_read shardA 4).1 (by decide)).1, by decide,
    ((set_empty_term_not_read shardA 4).1 (by decide)).2.2.1,
    ((set_empty_term_not_read shardA 4).1 (by decide)).2.2.2.1 (by decide),
    ((set_empty_term_not_read shardA 4).1 (by decide)).2.2.2.2.1 (shardA.set_termfreq "" 4).2⟩

end Stats

end Xapian
